import Mathlib

/-!
# Verification of the libvirt node controller

Shallow embedding of `src/discovery-infra/test_infra/controllers/node_controllers/
libvirt_controller.py` (class `LibvirtController`) and proofs about it.

The hypervisor (libvirt) is modelled as an explicit state: a list of domains,
each with a name, an active flag and a descriptor, together with an event
trace recording the mutating hypervisor calls the controller issues
(`create`, `destroy`, `defineXML`) and the wait-for-IP polls.  Controller
operations are state-passing functions returning `Except Err α × Hyp`:
Python exceptions become `Except.error`, and the returned state is the
hypervisor state at the moment the call returns or raises.
-/

namespace LibvirtCtl

/-! ## Python string containment (`pat in s`) -/

/-- `sublistAt pat s` holds when `pat` occurs as a contiguous sublist of `s`
(the semantics of Python's `pat in s` on the character lists). -/
def sublistAt : List Char → List Char → Bool
  | pat, [] => pat.isEmpty
  | pat, c :: rest => pat.isPrefixOf (c :: rest) || sublistAt pat rest

/-- Python's `pat in s` for strings. -/
def strContains (s pat : String) : Bool :=
  sublistAt pat.data s.data

/-! ## Role markers

Modelled from the spec: `consts.NodeRoles` is imported by the controller but
is not under `src/`; the spec says a domain name "contains a role marker
(`master`/`worker`) to be listed". -/

def MASTER : String := "master"

def WORKER : String := "worker"

/-! ## `list_nodes_with_name_filter` (source lines 26-37)

The Python loop is
```
for domain in domains:
    domain_name = domain.name()
    if name_filter and name_filter not in domain_name:
        continue
    if (consts.NodeRoles.MASTER in domain_name) or (consts.NodeRoles.WORKER in domain_name):
        nodes.append(domain)
```
`name_filter` may be `None` or a string; `if name_filter` is Python
truthiness, so `None` and `""` both skip the filter check.  Domains are
represented by their names. -/

/-- `name_filter and name_filter not in domain_name`: true exactly when the
filter is truthy (present and non-empty) and not contained in the name. -/
def skipByFilter (nameFilter : Option String) (domainName : String) : Bool :=
  match nameFilter with
  | none => false
  | some f => !(f == "") && !(strContains domainName f)

/-- The role-marker check of the second `if`. -/
def hasRoleMarker (domainName : String) : Bool :=
  strContains domainName MASTER || strContains domainName WORKER

/-- `list_nodes_with_name_filter`, as the list of kept domain names in
hypervisor enumeration order. -/
def list_nodes_with_name_filter (nameFilter : Option String) : List String → List String
  | [] => []
  | domainName :: rest =>
    if skipByFilter nameFilter domainName then
      list_nodes_with_name_filter nameFilter rest
    else if hasRoleMarker domainName then
      domainName :: list_nodes_with_name_filter nameFilter rest
    else
      list_nodes_with_name_filter nameFilter rest

/-- `list_nodes` (source lines 23-24) delegates with filter `None`. -/
def list_nodes (domains : List String) : List String :=
  list_nodes_with_name_filter none domains

/-! ## Hypervisor state model

Domain descriptors: the controller touches the `os` element's `boot`
sub-elements (attribute `dev`), and the `memory`/`currentMemory` elements
(integer text content, KiB).  Other children of `os` are carried opaquely so
that "unrelated elements are not disturbed" is visible in the model.
`memory`/`currentMemory` hold the parsed integer; Python's
`int(...)`/`replaceWholeText(...)` round-trip (`int(str(k)) = k`) justifies
storing the number directly. -/

/-- A child of the descriptor's `os` element: a `boot` element with its `dev`
attribute, or any other element identified by its tag. -/
inductive OsChild where
  | boot (dev : String)
  | other (tag : String)
deriving DecidableEq

/-- The part of a domain's XML descriptor the controller reads or mutates. -/
structure Descriptor where
  osChildren : List OsChild
  memory : Nat
  currentMemory : Nat
deriving DecidableEq

/-- A libvirt domain: name, active flag, persisted descriptor. -/
structure Domain where
  name : String
  active : Bool
  desc : Descriptor
deriving DecidableEq

/-- Mutating hypervisor calls the controller can issue, plus the wait-for-IP
polls, recorded in an event trace (so "no call issued" is expressible). -/
inductive Event where
  | create (name : String)
  | destroy (name : String)
  | define (name : String)
  | waitForIps (name : String)
deriving DecidableEq

/-- Python exceptions raised by the controller or the libraries it calls. -/
inductive Err where
  | lookupFailure (name : String)
  | valueError (msg : String)
  | defineFailed (msg : String)
  | timeoutExpired
  | pyException (msg : String)
deriving DecidableEq

/-- The hypervisor: its domains, a policy deciding whether `defineXML`
accepts a submitted descriptor, and the event trace so far. -/
structure Hyp where
  domains : List Domain
  accept : Descriptor → Bool
  trace : List Event

/-- `libvirt_connection.lookupByName`. -/
def lookupByName (h : Hyp) (name : String) : Option Domain :=
  h.domains.find? (fun d => d.name == name)

/-- Replace the domain called `name` (all occurrences; names are unique in
libvirt) by `f` of it, leaving the rest untouched. -/
def updateDomain (h : Hyp) (name : String) (f : Domain → Domain) : Hyp :=
  { h with domains := h.domains.map fun d => if d.name == name then f d else d }

/-- `libvirt_connection.defineXML`: if the hypervisor accepts the descriptor
it is stored for the domain named in it and the (re)defined domain is
returned; otherwise `None` is returned. -/
def defineXML (h : Hyp) (name : String) (d : Descriptor) : Option Hyp :=
  if h.accept d then
    let h' := updateDomain h name fun dom => { dom with desc := d }
    some { h' with trace := h'.trace ++ [Event.define name] }
  else
    none

/-- `node.destroy()`: forced power-off. -/
def domainDestroy (h : Hyp) (name : String) : Hyp :=
  let h' := updateDomain h name fun d => { d with active := false }
  { h' with trace := h'.trace ++ [Event.destroy name] }

/-- `node.create()`: power-on. -/
def domainCreate (h : Hyp) (name : String) : Hyp :=
  let h' := updateDomain h name fun d => { d with active := true }
  { h' with trace := h'.trace ++ [Event.create name] }

/-! ## `shutdown_node` (source lines 45-50) -/

/-- `shutdown_node`: look the domain up; destroy it only if it is active. -/
def shutdown_node (h : Hyp) (nodeName : String) : Except Err Unit × Hyp :=
  match lookupByName h nodeName with
  | none => (Except.error (Err.lookupFailure nodeName), h)
  | some node =>
    if node.active then (Except.ok (), domainDestroy h nodeName)
    else (Except.ok (), h)

/-! ## `_wait_till_domain_has_ips` and `start_node` (source lines 59-71, 145-153)

The bounded poll is run by the external `waiting` library; within
`start_node` only its outcome matters, so each wait is driven by an oracle
bit: `true` means an IP appeared within the timeout, `false` means
`waiting.exceptions.TimeoutExpired` was raised.  Each wait is recorded in
the trace. -/

/-- `_wait_till_domain_has_ips`, outcome given by the oracle bit `ok`. -/
def waitTillDomainHasIps (h : Hyp) (nodeName : String) (ok : Bool) :
    Except Err Unit × Hyp :=
  let h' := { h with trace := h.trace ++ [Event.waitForIps nodeName] }
  if ok then (Except.ok (), h') else (Except.error Err.timeoutExpired, h')

/-- `start_node`: if inactive, `create` then wait; on `TimeoutExpired`,
`shutdown_node`, `create` again, wait again — that second wait's outcome is
the call's outcome.  `w1`, `w2` are the oracle outcomes of the first and
second waits. -/
def start_node (h : Hyp) (nodeName : String) (w1 w2 : Bool) :
    Except Err Unit × Hyp :=
  match lookupByName h nodeName with
  | none => (Except.error (Err.lookupFailure nodeName), h)
  | some node =>
    if node.active then (Except.ok (), h)
    else
      let h1 := domainCreate h nodeName
      match waitTillDomainHasIps h1 nodeName w1 with
      | (Except.ok _, h2) => (Except.ok (), h2)
      | (Except.error _, h2) =>
        match shutdown_node h2 nodeName with
        | (Except.error e, h3) => (Except.error e, h3)
        | (Except.ok _, h3) =>
          let h4 := domainCreate h3 nodeName
          waitTillDomainHasIps h4 nodeName w2

/-! ## `set_boot_order` (source lines 155-183) -/

/-- The deletion loop over the `os` element's children: every `boot` child
with `dev` in `['cdrom', 'hd']` is removed; the first one with any other
`dev` raises `ValueError`; non-`boot` children are kept in order. -/
def removeBootElements : List OsChild → Except Err (List OsChild)
  | [] => Except.ok []
  | OsChild.boot dev :: rest =>
    if dev == "cdrom" || dev == "hd" then
      removeBootElements rest
    else
      Except.error (Err.valueError ("Found unexpected boot device: " ++ dev))
  | OsChild.other tag :: rest =>
    (removeBootElements rest).map (fun cleaned => OsChild.other tag :: cleaned)

/-- The `dev` attributes of the `boot` children, in document order. -/
def bootDevs (children : List OsChild) : List String :=
  children.filterMap fun c =>
    match c with
    | OsChild.boot dev => some dev
    | OsChild.other _ => none

/-- `set_boot_order`: read the descriptor, delete the old `boot` elements
(raising on an unexpected device), append `boot` elements for the requested
order, then `defineXML`, raising if the hypervisor returns no domain. -/
def set_boot_order (h : Hyp) (nodeName : String) (cdFirst : Bool) :
    Except Err Unit × Hyp :=
  match lookupByName h nodeName with
  | none => (Except.error (Err.lookupFailure nodeName), h)
  | some node =>
    match removeBootElements node.desc.osChildren with
    | Except.error e => (Except.error e, h)
    | Except.ok cleaned =>
      let first := OsChild.boot (if cdFirst then "cdrom" else "hd")
      let second := OsChild.boot (if cdFirst then "hd" else "cdrom")
      let newDesc := { node.desc with osChildren := cleaned ++ [first, second] }
      match defineXML h nodeName newDesc with
      | none =>
        (Except.error (Err.defineFailed
          ("Failed to set boot order cdrom first for node: " ++ nodeName)), h)
      | some h' => (Except.ok (), h')

/-! ## `get_ram_kib` and `set_ram_kib` (source lines 200-215) -/

/-- `get_ram_kib`: parse the domain's XML and read `currentMemory`. -/
def get_ram_kib (h : Hyp) (nodeName : String) : Except Err Nat × Hyp :=
  match lookupByName h nodeName with
  | none => (Except.error (Err.lookupFailure nodeName), h)
  | some node => (Except.ok node.desc.currentMemory, h)

/-- `set_ram_kib`: write `ram_kib` into both `memory` and `currentMemory`,
then `defineXML`, raising if the hypervisor returns no domain. -/
def set_ram_kib (h : Hyp) (nodeName : String) (ramKib : Nat) :
    Except Err Unit × Hyp :=
  match lookupByName h nodeName with
  | none => (Except.error (Err.lookupFailure nodeName), h)
  | some node =>
    let newDesc := { node.desc with memory := ramKib, currentMemory := ramKib }
    match defineXML h nodeName newDesc with
    | none =>
      (Except.error (Err.defineFailed ("Failed to set memory for node: " ++ nodeName)), h)
    | some h' => (Except.ok (), h')

/-! ## `format_disk` size parsing (source lines 81-95)

`utils.run_command` is not under `src/`.  Modelled from the spec: the
inspection command's output is the matching line ("a line containing
'virtual size'"); `output[0]` is that line.  The parsing itself is from the
source: `output[0].split(' ')[2]`, then `isdigit` and `+= "G"`. -/

/-- Split a character list at every separator character (those satisfying
`p`), keeping empty fields, as Python's `split(sep)` does; `acc` holds the
current field reversed. -/
def splitFieldsAux (p : Char → Bool) : List Char → List Char → List String
  | [], acc => [String.mk acc.reverse]
  | c :: rest, acc =>
    if p c then String.mk acc.reverse :: splitFieldsAux p rest []
    else splitFieldsAux p rest (c :: acc)

/-- Python's `line.split(' ')`: split at each single space character,
keeping the empty fields between consecutive spaces. -/
def pySplitOnSpace (line : String) : List String :=
  splitFieldsAux (fun c => c == ' ') line.data []

/-- Python's `line.split()`: the whitespace-delimited words of the line
(runs of whitespace separate words; no empty words). -/
def pyWhitespaceWords (line : String) : List String :=
  (splitFieldsAux (fun c => c.isWhitespace) line.data []).filter (fun w => !(w == ""))

/-- `output[0].split(' ')[2]`: the element at index 2 after splitting the
line on single space characters (`none` models Python's `IndexError`). -/
def sizeToken (line : String) : Option String :=
  (pySplitOnSpace line).get? 2

/-- Python's `str.isdigit` on the ASCII strings at hand: non-empty and all
characters digits. -/
def isPyDigit (s : String) : Bool :=
  !(s == "") && s.data.all Char.isDigit

/-- The size argument `format_disk` passes to `qemu-img create`: the token
at index 2, with `"G"` appended when it is all digits (the libvirt 6.0.0
compatibility shim). -/
def imageSizeArg (line : String) : Option String :=
  match sizeToken line with
  | none => none
  | some t => some (if isPyDigit t then t ++ "G" else t)

/-- ### Spec reading of the parsing contract
The spec's words, for comparison with `sizeToken`: "whitespace-delimited,
with the size token the third word" — the third whitespace-delimited word of
the line. -/
def specSizeToken (line : String) : Option String :=
  (pyWhitespaceWords line).get? 2

/-! ## `_get_domain_ips_and_macs` (source lines 125-139)

`domain.interfaceAddresses(...)` returns a dict mapping interface names to
records with a `hwaddr` and a list of address records; the code reads only
`addr['addr']`, so an interface is modelled as its `hwaddr` and its list of
leased IP strings. -/

/-- One value of the `interfaceAddresses` dict. -/
structure IfaceVal where
  hwaddr : String
  addrs : List String
deriving DecidableEq

/-- The double loop: for each interface with a non-empty `addrs` list,
append each address to `ips` and the interface's `hwaddr` to `macs`. -/
def collectIpsMacs : List (String × IfaceVal) → List String × List String
  | [] => ([], [])
  | (_, val) :: rest =>
    let (ips, macs) := collectIpsMacs rest
    if val.addrs.isEmpty then (ips, macs)
    else (val.addrs ++ ips, val.addrs.map (fun _ => val.hwaddr) ++ macs)

/-- `_get_domain_ips_and_macs` on the interface dict (as an association list
in dict iteration order); the leading `if interfaces:` guard is the Python
truthiness check on the dict. -/
def get_domain_ips_and_macs (interfaces : List (String × IfaceVal)) :
    List String × List String :=
  if interfaces.isEmpty then ([], []) else collectIpsMacs interfaces

/-! ## The `waiting` library's poll loop (external collaborator)

`_wait_till_domain_has_ips` calls `waiting.wait(pred, timeout_seconds=360,
sleep_seconds=5, ..., expected_exceptions=Exception)`.  Per the `waiting`
library's documented semantics, an exception raised by the predicate that
matches `expected_exceptions` is caught and polling continues; when the
timeout elapses `TimeoutExpired` is raised.  With
`expected_exceptions=Exception` every predicate exception is caught.
`fuel` is the number of polls remaining before the timeout (360/5 = 72 in
the source), `i` the index of the current poll; the predicate may return a
truth value or raise. -/
def waitingWait (fuel : Nat) (i : Nat) (pred : Nat → Except Err Bool) :
    Except Err Unit :=
  match fuel with
  | 0 => Except.error Err.timeoutExpired
  | n + 1 =>
    match pred i with
    | Except.ok true => Except.ok ()
    | Except.ok false => waitingWait n (i + 1) pred
    | Except.error _ => waitingWait n (i + 1) pred

/-! ## `__del__` (source lines 19-21) -/

/-- `with suppress(Exception): ...` — the body's outcome is discarded. -/
def suppressExc (body : Except Err Unit) : Except Err Unit :=
  match body with
  | Except.ok _ => Except.ok ()
  | Except.error _ => Except.ok ()

/-- `__del__`: close the libvirt connection under `suppress(Exception)`;
`close` is the outcome of `libvirt_connection.close()`. -/
def controllerDel (close : Except Err Unit) : Except Err Unit :=
  suppressExc close

/-! ## Result classifiers and concrete sample states -/

/-- Does a call outcome carry the `ValueError` of `set_boot_order`? -/
def isValueError : Except Err Unit → Bool
  | Except.error (Err.valueError _) => true
  | _ => false

/-- A descriptor with one non-`boot` child and `hd`/`cdrom` boot elements. -/
def sampleDesc : Descriptor :=
  { osChildren := [OsChild.other "type", OsChild.boot "hd", OsChild.boot "cdrom"],
    memory := 2097152, currentMemory := 2097152 }

/-- An inactive master domain. -/
def sampleDomain : Domain :=
  { name := "test-infra-master-0", active := false, desc := sampleDesc }

/-- A hypervisor holding `sampleDomain`, accepting every redefinition. -/
def sampleHyp : Hyp :=
  { domains := [sampleDomain], accept := fun _ => true, trace := [] }

/-- A hypervisor with no domains. -/
def emptyHyp : Hyp :=
  { domains := [], accept := fun _ => true, trace := [] }

/-- A hypervisor holding `sampleDomain`, rejecting every redefinition. -/
def rejectHyp : Hyp :=
  { domains := [sampleDomain], accept := fun _ => false, trace := [] }

/-- An inactive worker domain whose descriptor has a `floppy` boot element. -/
def floppyDomain : Domain :=
  { name := "test-infra-worker-0", active := false,
    desc := { osChildren := [OsChild.boot "floppy", OsChild.boot "hd"],
              memory := 1048576, currentMemory := 1048576 } }

/-- A hypervisor holding `floppyDomain`, accepting every redefinition. -/
def floppyHyp : Hyp :=
  { domains := [floppyDomain], accept := fun _ => true, trace := [] }

/-! ## Lemmas on listing -/

theorem sublistAt_nil (l : List Char) : sublistAt [] l = true := by
  cases l <;> simp [sublistAt, List.isPrefixOf]

theorem strContains_empty (s : String) : strContains s "" = true :=
  sublistAt_nil s.data

theorem list_nodes_none_eq_filter (domains : List String) :
    list_nodes_with_name_filter none domains = domains.filter hasRoleMarker := by
  induction domains with
  | nil => rfl
  | cons d rest ih =>
    simp only [list_nodes_with_name_filter, skipByFilter, if_false, List.filter_cons]
    by_cases h : hasRoleMarker d
    · simp [h, ih]
    · simp [h, ih]

theorem list_nodes_some_eq_filter (f : String) (domains : List String) :
    list_nodes_with_name_filter (some f) domains
      = (list_nodes_with_name_filter none domains).filter (fun n => strContains n f) := by
  induction domains with
  | nil => rfl
  | cons d rest ih =>
    simp only [list_nodes_with_name_filter, skipByFilter]
    by_cases hf : f = ""
    · subst hf
      by_cases hr : hasRoleMarker d
      · simp [hr, ih, strContains_empty]
      · simp [hr, ih]
    · by_cases hc : strContains d f
      · by_cases hr : hasRoleMarker d
        · simp [hf, hc, hr, ih]
        · simp [hf, hc, hr, ih]
      · by_cases hr : hasRoleMarker d
        · simp [hf, hc, hr, ih]
        · simp [hf, hc, hr, ih]

/-! ## Infrastructure lemmas -/

theorem find?_update (l : List Domain) (n : String) (f : Domain → Domain)
    (hf : ∀ d, (f d).name = d.name) :
    (l.map (fun d => if d.name == n then f d else d)).find? (fun d => d.name == n)
      = (l.find? (fun d => d.name == n)).map f := by
  induction l with
  | nil => rfl
  | cons d rest ih =>
    simp only [List.map_cons]
    by_cases hd : d.name = n
    · have hb : (d.name == n) = true := by simp [hd]
      have hb' : ((f d).name == n) = true := by simp [hf d, hd]
      rw [if_pos hb]
      simp [List.find?_cons, hb, hb']
    · have hb : (d.name == n) = false := by simp [hd]
      rw [if_neg (by simp [hd])]
      simp only [List.find?_cons, hb, cond_false]
      exact ih

theorem lookupByName_domainCreate (h : Hyp) (n : String) :
    lookupByName (domainCreate h n) n
      = (lookupByName h n).map (fun d => { d with active := true }) := by
  simpa [lookupByName, domainCreate, updateDomain] using
    find?_update h.domains n (fun d => { d with active := true }) (fun _ => rfl)

theorem lookupByName_domainDestroy (h : Hyp) (n : String) :
    lookupByName (domainDestroy h n) n
      = (lookupByName h n).map (fun d => { d with active := false }) := by
  simpa [lookupByName, domainDestroy, updateDomain] using
    find?_update h.domains n (fun d => { d with active := false }) (fun _ => rfl)

theorem lookupByName_defineXML (h : Hyp) (n : String) (d : Descriptor) (h' : Hyp)
    (hdef : defineXML h n d = some h') :
    lookupByName h' n = (lookupByName h n).map (fun dom => { dom with desc := d }) := by
  by_cases ha : h.accept d
  · simp only [defineXML, ha, if_true, Option.some.injEq] at hdef
    subst hdef
    simpa [lookupByName, updateDomain] using
      find?_update h.domains n (fun dom => { dom with desc := d }) (fun _ => rfl)
  · simp [defineXML, ha] at hdef

theorem removeBootElements_ok_of_valid (cs : List OsChild)
    (hv : ∀ dev, OsChild.boot dev ∈ cs → dev = "cdrom" ∨ dev = "hd") :
    ∃ cleaned, removeBootElements cs = Except.ok cleaned ∧ bootDevs cleaned = [] := by
  induction cs with
  | nil => exact ⟨[], rfl, rfl⟩
  | cons c rest ih =>
    cases c with
    | boot dev =>
      obtain ⟨cl, hcl, hbd⟩ := ih (fun d hd => hv d (List.mem_cons_of_mem _ hd))
      have hdev := hv dev (List.mem_cons_self _ _)
      have hb : (dev == "cdrom" || dev == "hd") = true := by
        rcases hdev with h | h <;> simp [h]
      exact ⟨cl, by simp [removeBootElements, hb, hcl], hbd⟩
    | other tag =>
      obtain ⟨cl, hcl, hbd⟩ := ih (fun d hd => hv d (List.mem_cons_of_mem _ hd))
      refine ⟨OsChild.other tag :: cl, by simp [removeBootElements, hcl, Except.map], ?_⟩
      simpa [bootDevs, List.filterMap_cons] using hbd

theorem removeBootElements_error_of_bad (cs : List OsChild) (dev : String)
    (hmem : OsChild.boot dev ∈ cs) (hc : dev ≠ "cdrom") (hh : dev ≠ "hd") :
    ∃ msg, removeBootElements cs = Except.error (Err.valueError msg) := by
  induction cs with
  | nil => simp at hmem
  | cons c rest ih =>
    cases c with
    | boot d0 =>
      by_cases hd0 : (d0 == "cdrom" || d0 == "hd") = true
      · have hrest : OsChild.boot dev ∈ rest := by
          rcases List.mem_cons.mp hmem with h | h
          · cases h
            rcases Bool.or_eq_true_iff.mp hd0 with h' | h'
            · exact absurd (by simpa using h') hc
            · exact absurd (by simpa using h') hh
          · exact h
        obtain ⟨msg, hmsg⟩ := ih hrest
        exact ⟨msg, by simp [removeBootElements, hd0, hmsg]⟩
      · exact ⟨"Found unexpected boot device: " ++ d0,
          by simp [removeBootElements, hd0]⟩
    | other tag =>
      have hrest : OsChild.boot dev ∈ rest := by
        rcases List.mem_cons.mp hmem with h | h
        · cases h
        · exact h
      obtain ⟨msg, hmsg⟩ := ih hrest
      exact ⟨msg, by simp [removeBootElements, hmsg, Except.map]⟩

theorem waitingWait_ok_or_timeout (fuel i : Nat) (pred : Nat → Except Err Bool) :
    waitingWait fuel i pred = Except.ok () ∨
    waitingWait fuel i pred = Except.error Err.timeoutExpired := by
  induction fuel generalizing i with
  | zero => exact Or.inr rfl
  | succ n ih =>
    cases hp : pred i with
    | ok b =>
      cases b with
      | true => exact Or.inl (by simp [waitingWait, hp])
      | false => simpa [waitingWait, hp] using ih (i + 1)
    | error e => simpa [waitingWait, hp] using ih (i + 1)

theorem collectIpsMacs_eq (l : List (String × IfaceVal)) :
    collectIpsMacs l
      = ((l.map (fun kv => kv.2.addrs)).flatten,
         (l.map (fun kv => kv.2.addrs.map (fun _ => kv.2.hwaddr))).flatten) := by
  induction l with
  | nil => rfl
  | cons kv rest ih =>
    by_cases ha : kv.2.addrs.isEmpty
    · have hnil : kv.2.addrs = [] := List.isEmpty_iff.mp ha
      simp [collectIpsMacs, ih, ha, hnil]
    · simp [collectIpsMacs, ih, ha]

theorem lookupByName_setTrace (h : Hyp) (t : List Event) (n : String) :
    lookupByName { h with trace := t } n = lookupByName h n := rfl

theorem lookupByName_updateDomain (h : Hyp) (n : String) (f : Domain → Domain)
    (hf : ∀ d, (f d).name = d.name) :
    lookupByName (updateDomain h n f) n = (lookupByName h n).map f := by
  simpa [lookupByName, updateDomain] using find?_update h.domains n f hf

theorem lookupByName_updateDomain_desc (h : Hyp) (n : String) (d : Descriptor) :
    lookupByName (updateDomain h n (fun dom => { dom with desc := d })) n
      = (lookupByName h n).map (fun dom => { dom with desc := d }) :=
  lookupByName_updateDomain h n _ (fun _ => rfl)

theorem bootDevs_append (xs ys : List OsChild) :
    bootDevs (xs ++ ys) = bootDevs xs ++ bootDevs ys := by
  simp [bootDevs, List.filterMap_append]

theorem trace_domainCreate (h : Hyp) (n : String) :
    (domainCreate h n).trace = h.trace ++ [Event.create n] := rfl

theorem trace_domainDestroy (h : Hyp) (n : String) :
    (domainDestroy h n).trace = h.trace ++ [Event.destroy n] := rfl

theorem collectIpsMacs_length (l : List (String × IfaceVal)) :
    (collectIpsMacs l).1.length = (collectIpsMacs l).2.length := by
  induction l with
  | nil => rfl
  | cons kv rest ih =>
    by_cases ha : kv.2.addrs.isEmpty
    · simp [collectIpsMacs, ha, ih]
    · simp [collectIpsMacs, ha, ih]

theorem collectIpsMacs_nil_of_empty (l : List (String × IfaceVal))
    (hall : ∀ kv ∈ l, kv.2.addrs = []) : collectIpsMacs l = ([], []) := by
  induction l with
  | nil => rfl
  | cons kv rest ih =>
    have h0 : kv.2.addrs = [] := hall kv (List.mem_cons_self _ _)
    have hrest := ih (fun x hx => hall x (List.mem_cons_of_mem _ hx))
    simp [collectIpsMacs, h0, hrest]

/-- Shared computation for `start_node` on an inactive node whose first wait
times out: one forced power-cycle, one repeated wait, whose outcome is the
call's outcome. -/
theorem start_node_retry_aux (h : Hyp) (n : String) (w2 : Bool) (node : Domain)
    (hlook : lookupByName h n = some node) (hact : node.active = false) :
    (start_node h n false w2).1
        = (if w2 then Except.ok () else Except.error Err.timeoutExpired) ∧
    (start_node h n false w2).2.trace
        = h.trace ++ [Event.create n, Event.waitForIps n, Event.destroy n,
                      Event.create n, Event.waitForIps n] := by
  have hlookC : lookupByName (domainCreate h n) n = some { node with active := true } := by
    rw [lookupByName_domainCreate, hlook]
    rfl
  have hmain : start_node h n false w2
      = waitTillDomainHasIps
          (domainCreate
            (domainDestroy
              { domainCreate h n with
                  trace := (domainCreate h n).trace ++ [Event.waitForIps n] } n) n) n w2 := by
    simp only [start_node, hlook, hact, Bool.false_eq_true, if_false, waitTillDomainHasIps,
      shutdown_node]
    rw [show lookupByName
          { domainCreate h n with
              trace := (domainCreate h n).trace ++ [Event.waitForIps n] } n
        = some { node with active := true } from hlookC]
    simp
  rw [hmain]
  cases w2 <;>
    simp [waitTillDomainHasIps, trace_domainCreate, trace_domainDestroy, List.append_assoc]

/-! ## Claim theorems -/

/-- C1, counterexample: an exception raised at every poll of the lease
addresses inside the wait-for-IP loop does not propagate — the loop ends in
the timeout error, with no trace of the poll's own exception, because
`_wait_till_domain_has_ips` passes `expected_exceptions=Exception`. -/
theorem wait_swallows_poll_exception :
    waitingWait 3 0 (fun _ => Except.error (Err.pyException "failed to query DHCP leases"))
        = Except.error Err.timeoutExpired ∧
    waitingWait 3 0 (fun _ => Except.error (Err.pyException "failed to query DHCP leases"))
        ≠ Except.error (Err.pyException "failed to query DHCP leases") := by
  constructor
  · rfl
  · rw [show waitingWait 3 0
        (fun _ => Except.error (Err.pyException "failed to query DHCP leases"))
        = Except.error Err.timeoutExpired from rfl]
    simp

/-- C1, amended: no error is swallowed except (a) the close of the
hypervisor session at teardown, caught and discarded, (b) exceptions raised
by the lease-address poll inside the wait-for-IP loop, which are expected
exceptions of the `waiting` call — the wait's only possible failure is the
timeout — and (c) the first wait's `TimeoutExpired` inside `start_node`,
consumed by the single retry; other failures, such as lookup failures,
propagate to the caller. -/
theorem error_propagation_policy (fuel i : Nat) (pred : Nat → Except Err Bool)
    (close : Except Err Unit) (h h2 : Hyp) (n m : String) (node : Domain) :
    (waitingWait fuel i pred = Except.ok () ∨
      waitingWait fuel i pred = Except.error Err.timeoutExpired) ∧
    controllerDel close = Except.ok () ∧
    (lookupByName h n = none →
      shutdown_node h n = (Except.error (Err.lookupFailure n), h)) ∧
    (lookupByName h2 m = some node → node.active = false →
      (start_node h2 m false true).1 = Except.ok ()) := by
  refine ⟨waitingWait_ok_or_timeout fuel i pred, ?_, ?_, ?_⟩
  · cases close with
    | ok a => rfl
    | error e => rfl
  · intro hnone
    simp [shutdown_node, hnone]
  · intro hlook hact
    simpa using (start_node_retry_aux h2 m true node hlook hact).1

/-- C1, witness for the amended theorem at concrete inputs. -/
theorem error_propagation_policy_witness :
    (waitingWait 2 0 (fun _ => Except.error (Err.pyException "lease query failed"))
          = Except.ok () ∨
      waitingWait 2 0 (fun _ => Except.error (Err.pyException "lease query failed"))
          = Except.error Err.timeoutExpired) ∧
    controllerDel (Except.error (Err.pyException "close failed")) = Except.ok () ∧
    shutdown_node emptyHyp "test-infra-master-0"
        = (Except.error (Err.lookupFailure "test-infra-master-0"), emptyHyp) ∧
    (start_node sampleHyp "test-infra-master-0" false true).1 = Except.ok () := by
  have T := error_propagation_policy 2 0
    (fun _ => Except.error (Err.pyException "lease query failed"))
    (Except.error (Err.pyException "close failed")) emptyHyp sampleHyp
    "test-infra-master-0" "test-infra-master-0" sampleDomain
  exact ⟨T.1, T.2.1, T.2.2.1 rfl, T.2.2.2 rfl rfl⟩

/-- C2: on a descriptor whose `boot` elements are all of device kind
`cdrom` or `hd`, `set_boot_order` succeeds and the redefined descriptor has
exactly the two boot elements `[cdrom, hd]` (cd first) or `[hd, cdrom]`,
however many boot elements existed before. -/
theorem setBootOrder_exactly_two (h : Hyp) (n : String) (cdFirst : Bool) (node : Domain)
    (hlook : lookupByName h n = some node)
    (hvalid : ∀ dev, OsChild.boot dev ∈ node.desc.osChildren → dev = "cdrom" ∨ dev = "hd")
    (hacc : ∀ d, h.accept d = true) :
    (set_boot_order h n cdFirst).1 = Except.ok () ∧
    (lookupByName (set_boot_order h n cdFirst).2 n).map
        (fun dom => bootDevs dom.desc.osChildren)
      = some (if cdFirst then ["cdrom", "hd"] else ["hd", "cdrom"]) := by
  obtain ⟨cleaned, hcl, hbd⟩ := removeBootElements_ok_of_valid _ hvalid
  simp only [set_boot_order, hlook, hcl, defineXML, hacc, if_true]
  refine ⟨trivial, ?_⟩
  rw [lookupByName_setTrace, lookupByName_updateDomain_desc, hlook]
  have hlit1 : bootDevs [OsChild.boot "cdrom", OsChild.boot "hd"] = ["cdrom", "hd"] := rfl
  have hlit2 : bootDevs [OsChild.boot "hd", OsChild.boot "cdrom"] = ["hd", "cdrom"] := rfl
  cases cdFirst <;> simp [bootDevs_append, hbd, hlit1, hlit2]

/-- C2, witness: a domain with boot elements `hd`, `cdrom` and a non-boot
child, cd first requested. -/
theorem setBootOrder_exactly_two_witness :
    (set_boot_order sampleHyp "test-infra-master-0" true).1 = Except.ok () ∧
    (lookupByName (set_boot_order sampleHyp "test-infra-master-0" true).2
        "test-infra-master-0").map (fun dom => bootDevs dom.desc.osChildren)
      = some ["cdrom", "hd"] := by
  have hv : ∀ dev, OsChild.boot dev ∈ sampleDomain.desc.osChildren →
      dev = "cdrom" ∨ dev = "hd" := by
    intro dev hdev
    simp [sampleDomain, sampleDesc] at hdev
    rcases hdev with hdv | hdv
    · exact Or.inr hdv
    · exact Or.inl hdv
  simpa using
    setBootOrder_exactly_two sampleHyp "test-infra-master-0" true sampleDomain rfl hv
      (fun _ => rfl)

/-- C3: on a descriptor with a `boot` element of unexpected device kind,
`set_boot_order` raises `ValueError` and commits nothing: the hypervisor
state (domains and trace) is exactly what it was before the call. -/
theorem setBootOrder_bad_device (h : Hyp) (n : String) (cdFirst : Bool) (node : Domain)
    (dev : String) (hlook : lookupByName h n = some node)
    (hmem : OsChild.boot dev ∈ node.desc.osChildren)
    (hc : dev ≠ "cdrom") (hh : dev ≠ "hd") :
    isValueError (set_boot_order h n cdFirst).1 = true ∧
    (set_boot_order h n cdFirst).2 = h := by
  obtain ⟨msg, hmsg⟩ := removeBootElements_error_of_bad _ dev hmem hc hh
  constructor <;> simp [set_boot_order, hlook, hmsg, isValueError]

/-- C3, witness: a domain with a `floppy` boot element. -/
theorem setBootOrder_bad_device_witness :
    isValueError (set_boot_order floppyHyp "test-infra-worker-0" true).1 = true ∧
    (set_boot_order floppyHyp "test-infra-worker-0" true).2 = floppyHyp :=
  setBootOrder_bad_device floppyHyp "test-infra-worker-0" true floppyDomain "floppy" rfl
    (by decide) (by decide) (by decide)

/-- C4: on an inactive domain whose first bounded wait for an IP times out,
`start_node` force-shuts the node down and powers it on exactly once more
(the trace shows one `destroy` and exactly two `create` calls), repeats the
wait exactly once (exactly two wait events, no third attempt), and the
second wait's timeout propagates as the call's failure. -/
theorem startNode_single_retry (h : Hyp) (n : String) (w2 : Bool) (node : Domain)
    (hlook : lookupByName h n = some node) (hact : node.active = false) :
    (start_node h n false w2).1
        = (if w2 then Except.ok () else Except.error Err.timeoutExpired) ∧
    (start_node h n false w2).2.trace
        = h.trace ++ [Event.create n, Event.waitForIps n, Event.destroy n,
                      Event.create n, Event.waitForIps n] :=
  start_node_retry_aux h n w2 node hlook hact

/-- C4, witness: the sample inactive domain with both waits timing out. -/
theorem startNode_single_retry_witness :
    (start_node sampleHyp "test-infra-master-0" false false).1
        = Except.error Err.timeoutExpired ∧
    (start_node sampleHyp "test-infra-master-0" false false).2.trace
        = [Event.create "test-infra-master-0", Event.waitForIps "test-infra-master-0",
           Event.destroy "test-infra-master-0", Event.create "test-infra-master-0",
           Event.waitForIps "test-infra-master-0"] := by
  simpa using
    startNode_single_retry sampleHyp "test-infra-master-0" false sampleDomain rfl rfl

/-- C5: `list_nodes` (no filter) returns exactly the domains whose name
contains a role marker, in hypervisor enumeration order, and listing with a
filter returns the sub-list of the unfiltered listing whose names contain
the filter substring. -/
theorem listNodes_markers_and_filter (domains : List String) (f : String) :
    list_nodes_with_name_filter none domains = domains.filter hasRoleMarker ∧
    list_nodes_with_name_filter (some f) domains
      = (list_nodes_with_name_filter none domains).filter (fun n => strContains n f) :=
  ⟨list_nodes_none_eq_filter domains, list_nodes_some_eq_filter f domains⟩

/-- C6, counterexample: on the line `virtual size:  20` (two spaces before
the size, a legal whitespace-delimited layout whose third word is `20`) the
code's `split(' ')[2]` extracts the empty field between the two spaces, not
the third whitespace-delimited word, so the created size is `""` and not
`20G`. -/
theorem sizeToken_not_third_word :
    sizeToken "virtual size:  20" = some "" ∧
    specSizeToken "virtual size:  20" = some "20" ∧
    imageSizeArg "virtual size:  20" = some "" ∧
    imageSizeArg "virtual size:  20" ≠ some "20G" := by
  refine ⟨rfl, rfl, rfl, ?_⟩
  rw [show imageSizeArg "virtual size:  20" = some "" from rfl]
  simp

/-- C6, amended: `format_disk` extracts the size token as the element at
index 2 of the line split on single space characters (which coincides with
the third whitespace-delimited word on lines whose fields are separated by
single spaces, such as the example line); a token consisting only of digits
gets `G` appended, so `virtual size: 20` yields a create size of `20G`. -/
theorem imageSizeArg_single_space_split (line tok : String)
    (htok : sizeToken line = some tok) :
    imageSizeArg line = some (if isPyDigit tok then tok ++ "G" else tok) ∧
    sizeToken "virtual size: 20" = specSizeToken "virtual size: 20" ∧
    imageSizeArg "virtual size: 20" = some "20G" := by
  refine ⟨?_, rfl, rfl⟩
  simp [imageSizeArg, htok]

/-- C6, witness for the amended theorem at the example line. -/
theorem imageSizeArg_single_space_split_witness :
    imageSizeArg "virtual size: 20" = some (if isPyDigit "20" then "20" ++ "G" else "20") ∧
    sizeToken "virtual size: 20" = specSizeToken "virtual size: 20" ∧
    imageSizeArg "virtual size: 20" = some "20G" :=
  imageSizeArg_single_space_split "virtual size: 20" "20" rfl

/-- C7: `set_ram_kib` writes `kib` into both `memory` and `currentMemory`
and redefines; if the hypervisor accepts, a subsequent `get_ram_kib`
returns `kib`; if it rejects, the call raises and the state is unchanged. -/
theorem setRam_getRam (h : Hyp) (n : String) (kib : Nat) (node : Domain)
    (hlook : lookupByName h n = some node) :
    (h.accept { node.desc with memory := kib, currentMemory := kib } = true →
      (set_ram_kib h n kib).1 = Except.ok () ∧
      (lookupByName (set_ram_kib h n kib).2 n).map
          (fun d => (d.desc.memory, d.desc.currentMemory)) = some (kib, kib) ∧
      (get_ram_kib (set_ram_kib h n kib).2 n).1 = Except.ok kib) ∧
    (h.accept { node.desc with memory := kib, currentMemory := kib } = false →
      set_ram_kib h n kib
        = (Except.error (Err.defineFailed ("Failed to set memory for node: " ++ n)), h)) := by
  constructor
  · intro hacc
    simp only [set_ram_kib, hlook, defineXML, hacc, if_true]
    have hl : lookupByName
        { updateDomain h n
            (fun dom => { dom with desc := { node.desc with memory := kib, currentMemory := kib } })
          with trace :=
            (updateDomain h n
              (fun dom => { dom with desc := { node.desc with memory := kib, currentMemory := kib } })).trace
            ++ [Event.define n] } n
        = some { node with desc := { node.desc with memory := kib, currentMemory := kib } } := by
      rw [lookupByName_setTrace, lookupByName_updateDomain_desc, hlook]
      rfl
    refine ⟨trivial, ?_, ?_⟩
    · rw [hl]
      rfl
    · simp only [get_ram_kib, hl]
  · intro hacc
    simp [set_ram_kib, hlook, defineXML, hacc]

/-- C7, witness: setting 4194304 KiB on the sample domain (accepted) and on
the rejecting hypervisor. -/
theorem setRam_getRam_witness :
    (set_ram_kib sampleHyp "test-infra-master-0" 4194304).1 = Except.ok () ∧
    (get_ram_kib (set_ram_kib sampleHyp "test-infra-master-0" 4194304).2
        "test-infra-master-0").1 = Except.ok 4194304 ∧
    set_ram_kib rejectHyp "test-infra-master-0" 4194304
      = (Except.error
          (Err.defineFailed ("Failed to set memory for node: " ++ "test-infra-master-0")),
         rejectHyp) := by
  have hA := (setRam_getRam sampleHyp "test-infra-master-0" 4194304 sampleDomain rfl).1 rfl
  have hB := (setRam_getRam rejectHyp "test-infra-master-0" 4194304 sampleDomain rfl).2 rfl
  exact ⟨hA.1, hA.2.2, hB⟩

/-- C8: `shutdown_node` on an already-inactive domain is a no-op — no
hypervisor power-off call is issued (the trace is unchanged) and the state
is exactly the old one — so a second invocation has the same effect. -/
theorem shutdownNode_inactive_noop (h : Hyp) (n : String) (node : Domain)
    (hlook : lookupByName h n = some node) (hact : node.active = false) :
    shutdown_node h n = (Except.ok (), h) ∧
    shutdown_node (shutdown_node h n).2 n = shutdown_node h n := by
  have h1 : shutdown_node h n = (Except.ok (), h) := by
    simp [shutdown_node, hlook, hact]
  refine ⟨h1, ?_⟩
  rw [h1]
  exact h1

/-- C8, witness: the sample inactive domain. -/
theorem shutdownNode_inactive_noop_witness :
    shutdown_node sampleHyp "test-infra-master-0" = (Except.ok (), sampleHyp) ∧
    shutdown_node (shutdown_node sampleHyp "test-infra-master-0").2 "test-infra-master-0"
      = shutdown_node sampleHyp "test-infra-master-0" :=
  shutdownNode_inactive_noop sampleHyp "test-infra-master-0" sampleDomain rfl rfl

/-- C9: `_get_domain_ips_and_macs` returns two lists of equal length in
parallel order — the IPs per interface in order, the interface's MAC
repeated once per IP — and two empty lists when no interface has a leased
address. -/
theorem ipsMacs_parallel (interfaces : List (String × IfaceVal)) :
    (get_domain_ips_and_macs interfaces).1.length
        = (get_domain_ips_and_macs interfaces).2.length ∧
    get_domain_ips_and_macs interfaces
        = ((interfaces.map (fun kv => kv.2.addrs)).flatten,
           (interfaces.map (fun kv => kv.2.addrs.map (fun _ => kv.2.hwaddr))).flatten) ∧
    ((∀ kv ∈ interfaces, kv.2.addrs = []) → get_domain_ips_and_macs interfaces = ([], [])) := by
  by_cases he : interfaces.isEmpty
  · have hnil : interfaces = [] := List.isEmpty_iff.mp he
    subst hnil
    exact ⟨rfl, rfl, fun _ => rfl⟩
  · refine ⟨?_, ?_, ?_⟩
    · simp [get_domain_ips_and_macs, he, collectIpsMacs_length]
    · simp [get_domain_ips_and_macs, he, collectIpsMacs_eq]
    · intro hall
      simp [get_domain_ips_and_macs, he, collectIpsMacs_nil_of_empty interfaces hall]

/-- C9, witness: a single interface with a MAC and no leased addresses. -/
theorem ipsMacs_parallel_witness :
    get_domain_ips_and_macs [("ens3", { hwaddr := "52:54:00:aa:bb:cc", addrs := [] })]
      = ([], []) :=
  (ipsMacs_parallel [("ens3", { hwaddr := "52:54:00:aa:bb:cc", addrs := [] })]).2.2
    (by decide)

/-- C10: listing with the empty-string filter equals listing with no
filter: the falsy empty string never restricts the result. -/
theorem listNodes_empty_filter (domains : List String) :
    list_nodes_with_name_filter (some "") domains
      = list_nodes_with_name_filter none domains := by
  induction domains with
  | nil => rfl
  | cons d rest ih => simp [list_nodes_with_name_filter, skipByFilter, ih]

end LibvirtCtl
